import Mathlib

/-!
Frontend API clients: bookmark manager and face-recognition attendance.

A shallow embedding of the two request dispatchers and of the query-string
builders of

* `BookmarkCollectionManager/frontend/js/api.js` (object `API`), and
* `FaceRecognitionAttendance/frontend/js/api.js` (function `request`, object `api`).

JavaScript values are a first-order datatype, the browser (localStorage,
`window.location.href`, the console and the calls made to `fetch`) is an
explicit state, the network is a function from the arguments of `fetch` to
the outcome of the call, and a promise is an `Except`: `.ok v` is a promise
resolved with `v`, `.error e` one rejected with `e`.
-/

set_option autoImplicit false

namespace JS

/-! ## Values -/

/-- JavaScript data values. `num n` is the Number whose value is the integer
`n`, of magnitude below `10 ^ 21` (from there on ToString and JSON.stringify
print a Number in exponent form, which `toStr` and `serializeJSONProperty`
do not model); fractional Numbers, `NaN`, the infinities, functions, symbols
and cyclic object graphs are outside the datatype, and a string is a sequence of
Unicode scalar values. An object is the list of its own enumerable
string-keyed properties in own-property-key order. -/
inductive JsVal where
  | undefined
  | null
  | bool (b : Bool)
  | num (n : Int)
  | str (s : String)
  | obj (props : List (String × JsVal))
  | arr (items : List JsVal)

/-- The own properties of a plain object, in own-property-key order. -/
abbrev Obj := List (String × JsVal)

/-- ToBoolean. -/
def truthy : JsVal → Bool
  | .undefined => false
  | .null => false
  | .bool b => b
  | .num n => n != 0
  | .str s => s != ""
  | .obj _ => true
  | .arr _ => true

/-- The `typeof` operator. -/
def typeOf : JsVal → String
  | .undefined => "undefined"
  | .null => "object"
  | .bool _ => "boolean"
  | .num _ => "number"
  | .str _ => "string"
  | .obj _ => "object"
  | .arr _ => "object"

/-- The test `v !== ''`. -/
def neEmptyString : JsVal → Bool
  | .str s => s != ""
  | _ => true

/-- The test `v !== null`. -/
def neNull : JsVal → Bool
  | .null => false
  | _ => true

/-- The test `v !== undefined`. -/
def neUndefined : JsVal → Bool
  | .undefined => false
  | _ => true

mutual
/-- ToString (for arrays: `Array.prototype.join` with a comma). -/
def toStr : JsVal → String
  | .undefined => "undefined"
  | .null => "null"
  | .bool b => if b then "true" else "false"
  | .num n => toString n
  | .str s => s
  | .obj _ => "[object Object]"
  | .arr items => ",".intercalate (joinItems items)
/-- The pieces `Array.prototype.join` concatenates: `null` and `undefined`
elements contribute the empty string. -/
def joinItems : List JsVal → List String
  | [] => []
  | .undefined :: rest => "" :: joinItems rest
  | .null :: rest => "" :: joinItems rest
  | v :: rest => toStr v :: joinItems rest
end

/-! ## Strings -/

/-- Whether the characters `pat` start the characters `s`. -/
def startsWithChars : List Char → List Char → Bool
  | _, [] => true
  | [], _ :: _ => false
  | c :: cs, p :: ps => c == p && startsWithChars cs ps

/-- Whether `pat` occurs in `s` at some position. -/
def includesChars : List Char → List Char → Bool
  | [], pat => startsWithChars [] pat
  | c :: cs, pat => startsWithChars (c :: cs) pat || includesChars cs pat

/-- The method `String.prototype.includes`. -/
def includes (s pat : String) : Bool := includesChars s.data pat.data

/-- The UTF-8 bytes of a code point. -/
def utf8Bytes (c : Char) : List Nat :=
  let n := c.toNat
  if n < 0x80 then [n]
  else if n < 0x800 then [0xC0 + n / 64, 0x80 + n % 64]
  else if n < 0x10000 then [0xE0 + n / 4096, 0x80 + (n / 64) % 64, 0x80 + n % 64]
  else [0xF0 + n / 262144, 0x80 + (n / 4096) % 64, 0x80 + (n / 64) % 64, 0x80 + n % 64]

/-- An upper-case hexadecimal digit. -/
def hexUpper (d : Nat) : Char :=
  if d < 10 then Char.ofNat (48 + d) else Char.ofNat (55 + d)

/-- A lower-case hexadecimal digit. -/
def hexLower (d : Nat) : Char :=
  if d < 10 then Char.ofNat (48 + d) else Char.ofNat (87 + d)

/-- Bytes the application/x-www-form-urlencoded serializer leaves as they
are: ASCII letters and digits, `*`, `-`, `.` and `_`. -/
def formSafeByte (b : Nat) : Bool :=
  (0x30 ≤ b && b ≤ 0x39) || (0x41 ≤ b && b ≤ 0x5A) || (0x61 ≤ b && b ≤ 0x7A)
    || b == 0x2A || b == 0x2D || b == 0x2E || b == 0x5F

/-- One byte of an application/x-www-form-urlencoded name or value: a space
becomes `+`, a safe byte stays, any other byte is percent-encoded. -/
def formEncodeByte (b : Nat) : List Char :=
  if b = 0x20 then ['+']
  else if formSafeByte b then [Char.ofNat b]
  else ['%', hexUpper (b / 16), hexUpper (b % 16)]

/-- Percent-encoding of a name or value of a query string, after UTF-8
encoding, as the application/x-www-form-urlencoded serializer does it. -/
def formEncode (s : String) : String :=
  String.mk ((s.data.flatMap utf8Bytes).flatMap formEncodeByte)

/-- The application/x-www-form-urlencoded serializer: for each tuple, an
ampersand when the output is not empty, then name, `=` and value. -/
def urlencodedSerialize (tuples : List (String × String)) : String :=
  tuples.foldl
    (fun output p =>
      (if output ≠ "" then output ++ "&" else output) ++ formEncode p.1 ++ "=" ++ formEncode p.2)
    ""

/-! ## Objects -/

/-- The array index a property key denotes, if it is one: a canonical decimal
numeral below `2 ^ 32 - 1`. -/
def arrayIndex? (k : String) : Option Nat :=
  match k.data with
  | [] => none
  | c :: cs =>
    if (c :: cs).all Char.isDigit && (c != '0' || cs.isEmpty) then
      let n := (c :: cs).foldl (fun a d => 10 * a + (d.toNat - 48)) 0
      if n < 4294967295 then some n else none
    else none

/-- Own-property-key order between two keys of one object: array indices
ascending first, then the other keys in creation order. -/
def keyBefore (a b : String) : Bool :=
  match arrayIndex? a, arrayIndex? b with
  | some i, some j => i < j
  | some _, none => true
  | none, some _ => false
  | none, none => true

/-- Property read `o[k]`; an absent property reads as `undefined`. -/
def Obj.get : Obj → String → JsVal
  | [], _ => .undefined
  | (k', v) :: rest, k => if k' == k then v else Obj.get rest k

/-- Whether `k` is an own property of the object. -/
def Obj.has (o : Obj) (k : String) : Bool := o.any (fun p => p.1 == k)

/-- Creation of the array-index property `k` (index `i`): it goes before the
first property that is not a smaller array index. -/
def Obj.insertIndexed (i : Nat) (k : String) (v : JsVal) : Obj → Obj
  | [] => [(k, v)]
  | p :: rest =>
    match arrayIndex? p.1 with
    | some j => if j < i then p :: Obj.insertIndexed i k v rest else (k, v) :: p :: rest
    | none => (k, v) :: p :: rest

/-- Property write `o[k] = v` on a plain object: an existing property keeps
its place and takes the value, a new one is created in key order. -/
def Obj.set (o : Obj) (k : String) (v : JsVal) : Obj :=
  if o.has k then o.map (fun p => if p.1 == k then (p.1, v) else p)
  else
    match arrayIndex? k with
    | some i => Obj.insertIndexed i k v o
    | none => o ++ [(k, v)]

/-- Object spread `{...target, ...source}`: every own property of `source`
is written to `target`, in order. -/
def Obj.spread (target source : Obj) : Obj :=
  source.foldl (fun acc p => acc.set p.1 p.2) target

/-- The list `Object.entries` returns. -/
def Object.entries (o : Obj) : List (String × JsVal) := o

/-- The object `Object.fromEntries` builds. -/
def Object.fromEntries (entries : List (String × JsVal)) : Obj :=
  entries.foldl (fun acc p => acc.set p.1 p.2) []

/-- Representation invariant of an object: its keys are distinct and stand
in own-property-key order. -/
def Obj.WF (o : Obj) : Prop :=
  (o.map Prod.fst).Nodup ∧ (o.map Prod.fst).Pairwise (fun a b => keyBefore a b = true)

/-! ## JSON.stringify -/

/-- The escape of one character inside a JSON string. -/
def jsonQuoteChar (c : Char) : List Char :=
  if c = '"' then ['\\', '"']
  else if c = '\\' then ['\\', '\\']
  else if c.toNat = 8 then ['\\', 'b']
  else if c.toNat = 12 then ['\\', 'f']
  else if c.toNat = 10 then ['\\', 'n']
  else if c.toNat = 13 then ['\\', 'r']
  else if c.toNat = 9 then ['\\', 't']
  else if c.toNat < 32 then ['\\', 'u', '0', '0', hexLower (c.toNat / 16), hexLower (c.toNat % 16)]
  else [c]

/-- QuoteJSONString. -/
def jsonQuote (s : String) : String :=
  String.mk ('"' :: s.data.flatMap jsonQuoteChar ++ ['"'])

mutual
/-- SerializeJSONProperty without indentation: `none` stands for the result
`undefined`. -/
def serializeJSONProperty : JsVal → Option String
  | .undefined => none
  | .null => some "null"
  | .bool b => some (if b then "true" else "false")
  | .num n => some (toString n)
  | .str s => some (jsonQuote s)
  | .obj props => some ("\x7b" ++ ",".intercalate (serializeJSONObject props) ++ "\x7d")
  | .arr items => some ("[" ++ ",".intercalate (serializeJSONArray items) ++ "]")
/-- The members of a serialized object: a property whose value serializes to
`undefined` is left out. -/
def serializeJSONObject : List (String × JsVal) → List String
  | [] => []
  | (k, v) :: rest =>
    match serializeJSONProperty v with
    | some t => (jsonQuote k ++ ":" ++ t) :: serializeJSONObject rest
    | none => serializeJSONObject rest
/-- The elements of a serialized array: an element that serializes to
`undefined` is written `null`. -/
def serializeJSONArray : List JsVal → List String
  | [] => []
  | v :: rest => (serializeJSONProperty v).getD "null" :: serializeJSONArray rest
end

/-- The function `JSON.stringify` of one argument. -/
def JSON.stringify (v : JsVal) : JsVal :=
  match serializeJSONProperty v with
  | some t => .str t
  | none => .undefined

/-! ## URLSearchParams -/

/-- A `URLSearchParams` object: its list of name-value tuples. -/
structure URLSearchParams where
  list : List (String × String)

/-- The call `new URLSearchParams()`. -/
def URLSearchParams.new : URLSearchParams := ⟨[]⟩

/-- The call `new URLSearchParams(record)`: one tuple per own property, the
value converted to a string. -/
def URLSearchParams.ofRecord (o : Obj) : URLSearchParams :=
  ⟨o.map (fun p => (p.1, toStr p.2))⟩

/-- The method `append(name, value)`. -/
def URLSearchParams.append (q : URLSearchParams) (name : String) (value : JsVal) :
    URLSearchParams :=
  ⟨q.list ++ [(name, toStr value)]⟩

/-- The method `toString()`. -/
def URLSearchParams.toString (q : URLSearchParams) : String :=
  urlencodedSerialize q.list

end JS

/-! ## The browser and the network -/

namespace JS

/-- The Storage object `localStorage`: its key-value pairs. -/
abbrev Storage := List (String × String)

/-- The method `getItem`; `none` stands for the result `null`. -/
def Storage.getItem : Storage → String → Option String
  | [], _ => none
  | (k', v) :: rest, k => if k' == k then some v else Storage.getItem rest k

/-- The method `removeItem`. -/
def Storage.removeItem (s : Storage) (k : String) : Storage :=
  s.filter (fun p => !(p.1 == k))

/-- The method `setItem`. -/
def Storage.setItem (s : Storage) (k v : String) : Storage :=
  if s.any (fun p => p.1 == k) then s.map (fun p => if p.1 == k then (p.1, v) else p)
  else s ++ [(k, v)]

/-- The options bag a caller hands to a request dispatcher. Each field is an
own property of the bag, `none` when the bag has no such property; `headers`,
when supplied, is a plain object (the record form of the headers of a fetch
init), and `others` are the properties other than these three. -/
structure Options where
  method : Option JsVal := none
  headers : Option Obj := none
  body : Option JsVal := none
  others : Obj := []

/-- The init object a dispatcher hands to `fetch`: `method` and `body` are
`undefined` when the object has no such property. -/
structure Config where
  method : JsVal
  headers : Obj
  body : JsVal
  others : Obj

/-- A response: its HTTP status and the outcome of `response.json()`, the
parsed body or the error the parse rejects with. -/
structure Response where
  status : Nat
  json : Except JsVal JsVal

/-- The network: the outcome of `fetch(url, init)`, a response or the error
the call rejects with. -/
abbrev Fetch := String → Config → Except JsVal Response

/-- The browser state a dispatcher reads and writes. -/
structure Browser where
  localStorage : Storage
  href : String
  console : List (List JsVal)
  fetched : List (String × Config)

/-- The value of `options.body`. -/
def Options.bodyVal (options : Options) : JsVal := options.body.getD .undefined

/-- The value of `options.method`. -/
def Options.methodVal (options : Options) : JsVal := options.method.getD .undefined

end JS

/-! ## BookmarkCollectionManager/frontend/js/api.js -/

namespace BookmarkCollectionManager
open JS

/-- The constant `API.BASE_URL`. -/
def API.BASE_URL : String := "http://localhost:8080/api"

/-- The method `API.getToken`: `localStorage.getItem('token')`. -/
def API.getToken (w : Browser) : JsVal :=
  match w.localStorage.getItem "token" with
  | some t => .str t
  | none => .null

/-- The method `API.setToken`. -/
def API.setToken (token : String) (w : Browser) : Browser :=
  { w with localStorage := w.localStorage.setItem "token" token }

/-- The method `API.clearToken`. -/
def API.clearToken (w : Browser) : Browser :=
  { w with localStorage := (w.localStorage.removeItem "token").removeItem "currentUser" }

/-- The object literal that initialises `config` in `API.request`: `method`,
then the merged `headers`, then the spread of `options`, whose own `method`,
`headers` and `body` overwrite what stands before. -/
def API.initialConfig (options : Options) : Config :=
  let method := if truthy options.methodVal then options.methodVal else .str "GET"
  let headers := Obj.spread [("Content-Type", .str "application/json")] (options.headers.getD [])
  { method := match options.method with
      | some m => m
      | none => method
    headers := match options.headers with
      | some h => h
      | none => headers
    body := options.bodyVal
    others := options.others }

/-- The init object `API.request` hands to `fetch`: the initial config, the
Authorization header when the token is truthy, the body as JSON text when it
is truthy and of type object. -/
def API.requestConfig (token : JsVal) (options : Options) : Config :=
  let config := API.initialConfig options
  let config :=
    if truthy token then
      { config with headers := config.headers.set "Authorization" (.str ("Bearer " ++ toStr token)) }
    else config
  if truthy options.bodyVal && typeOf options.bodyVal == "object" then
    { config with body := JSON.stringify options.bodyVal }
  else config

/-- The value returned on a 401 response. -/
def API.expiredResult : JsVal :=
  .obj [("success", .bool false), ("message", .str "登录已过期，请重新登录")]

/-- The value returned from the catch block. -/
def API.failureResult : JsVal :=
  .obj [("success", .bool false), ("message", .str "网络请求失败，请检查网络连接")]

/-- The catch block of `API.request`: log the error, resolve to the failure
value. -/
def API.caught (error : JsVal) (w : Browser) : Except JsVal JsVal × Browser :=
  (.ok API.failureResult, { w with console := w.console ++ [[.str "API请求失败:", error]] })

/-- The method `API.request`. -/
def API.request (fetch : Fetch) (endpoint : String) (options : Options) (w : Browser) :
    Except JsVal JsVal × Browser :=
  let url := API.BASE_URL ++ endpoint
  let token := API.getToken w
  let config := API.requestConfig token options
  let w := { w with fetched := w.fetched ++ [(url, config)] }
  match fetch url config with
  | .error error => API.caught error w
  | .ok response =>
    match response.json with
    | .error error => API.caught error w
    | .ok data =>
      if response.status == 401 && !(includes endpoint "/auth/login") then
        let w := API.clearToken w
        (.ok API.expiredResult, { w with href := "login.html" })
      else (.ok data, w)

/-- The options bag `API.auth.login` hands to `API.request`: the method
POST and the body `{ username, password }`. -/
def API.auth.login.options (username password : JsVal) : Options :=
  { method := some (.str "POST")
    body := some (.obj [("username", username), ("password", password)]) }

/-- The method `API.auth.login`. -/
def API.auth.login (fetch : Fetch) (username password : JsVal) (w : Browser) :
    Except JsVal JsVal × Browser :=
  API.request fetch "/auth/login" (API.auth.login.options username password) w

/-- The endpoint `API.bookmarks.getList` builds from `params`. -/
def API.bookmarks.getList.endpoint (params : Obj) : String :=
  let queryParams := URLSearchParams.new
  let queryParams :=
    if truthy (params.get "categoryId") then queryParams.append "categoryId" (params.get "categoryId")
    else queryParams
  let queryParams :=
    if truthy (params.get "keyword") then queryParams.append "keyword" (params.get "keyword")
    else queryParams
  let queryParams :=
    if truthy (params.get "page") then queryParams.append "page" (params.get "page")
    else queryParams
  let queryParams :=
    if truthy (params.get "size") then queryParams.append "size" (params.get "size")
    else queryParams
  let queryString := queryParams.toString
  if queryString ≠ "" then "/bookmarks?" ++ queryString else "/bookmarks"

/-- The method `API.bookmarks.getList`. -/
def API.bookmarks.getList (fetch : Fetch) (params : Obj) (w : Browser) :
    Except JsVal JsVal × Browser :=
  API.request fetch (API.bookmarks.getList.endpoint params) {} w

end BookmarkCollectionManager

/-! ## FaceRecognitionAttendance/frontend/js/api.js -/

namespace FaceRecognitionAttendance
open JS

/-- The constant `API_BASE_URL`. -/
def API_BASE_URL : String := "http://localhost:8081/api"

/-- The object `mergedOptions` of `request`: the default options, then the
spread of `options`, then the merged `headers`. -/
def mergedOptions (options : Options) : Config :=
  { method := options.methodVal
    headers := Obj.spread [("Content-Type", .str "application/json")] (options.headers.getD [])
    body := options.bodyVal
    others := options.others }

/-- The function `request`: the catch block logs the error and throws it
again. -/
def request (fetch : Fetch) (url : String) (options : Options) (w : Browser) :
    Except JsVal JsVal × Browser :=
  let init := mergedOptions options
  let w := { w with fetched := w.fetched ++ [(API_BASE_URL ++ url, init)] }
  match fetch (API_BASE_URL ++ url) init with
  | .error error => (.error error, { w with console := w.console ++ [[.str "API请求失败:", error]] })
  | .ok response =>
    match response.json with
    | .error error => (.error error, { w with console := w.console ++ [[.str "API请求失败:", error]] })
    | .ok data => (.ok data, w)

/-- The url `api.getEmployees` builds from `params`. -/
def api.getEmployees.url (params : Obj) : String :=
  let queryString := (URLSearchParams.ofRecord params).toString
  "/employees" ++ (if queryString ≠ "" then "?" ++ queryString else "")

/-- The method `api.getEmployees`. -/
def api.getEmployees (fetch : Fetch) (params : Obj) (w : Browser) :
    Except JsVal JsVal × Browser :=
  request fetch (api.getEmployees.url params) {} w

/-- The url `api.getAttendanceRecords` builds from `params`. -/
def api.getAttendanceRecords.url (params : Obj) : String :=
  let queryString :=
    (URLSearchParams.ofRecord
      (Object.fromEntries
        ((Object.entries params).filter
          (fun p => neEmptyString p.2 && neNull p.2 && neUndefined p.2)))).toString
  "/attendance/records" ++ (if queryString ≠ "" then "?" ++ queryString else "")

/-- The method `api.getAttendanceRecords`. -/
def api.getAttendanceRecords (fetch : Fetch) (params : Obj) (w : Browser) :
    Except JsVal JsVal × Browser :=
  request fetch (api.getAttendanceRecords.url params) {} w

/-- The url `api.getAttendanceStats` builds from `params`. -/
def api.getAttendanceStats.url (params : Obj) : String :=
  let queryString := (URLSearchParams.ofRecord params).toString
  "/statistics/attendance" ++ (if queryString ≠ "" then "?" ++ queryString else "")

/-- The method `api.getAttendanceStats`. -/
def api.getAttendanceStats (fetch : Fetch) (params : Obj) (w : Browser) :
    Except JsVal JsVal × Browser :=
  request fetch (api.getAttendanceStats.url params) {} w

end FaceRecognitionAttendance

/-! ## The builders as the specification describes them -/

namespace JS

/-- Presence of a field as the specification words it: the value is not
`undefined`, not `null` and not the empty string. -/
def presentAsDescribed (v : JsVal) : Bool :=
  neUndefined v && neNull v && neEmptyString v

end JS

namespace BookmarkCollectionManager
open JS

/-- The endpoint described for `API.bookmarks.getList`, for a given test of
presence: `/bookmarks`, and when a field is present a `?` and `key=value`
for the present fields among categoryId, keyword, page and size, in this
order, joined by `&`. -/
def API.bookmarks.getList.described (present : JsVal → Bool) (params : Obj) : String :=
  let fields := ["categoryId", "keyword", "page", "size"].filter (fun k => present (params.get k))
  if fields.isEmpty then "/bookmarks"
  else "/bookmarks?" ++
    "&".intercalate (fields.map (fun k => k ++ "=" ++ formEncode (toStr (params.get k))))

end BookmarkCollectionManager

namespace FaceRecognitionAttendance
open JS

/-- The url described for `api.getAttendanceRecords`: the entries of
`params` whose value is present, in the order of the object, as `key=value`
joined by `&` after `/attendance/records?`, or the bare path when no entry
is left. -/
def api.getAttendanceRecords.described (params : Obj) : String :=
  let kept := params.filter (fun p => presentAsDescribed p.2)
  if kept.isEmpty then "/attendance/records"
  else "/attendance/records?" ++
    "&".intercalate (kept.map (fun p => formEncode p.1 ++ "=" ++ formEncode (toStr p.2)))

end FaceRecognitionAttendance

/-! ## Lemmas on objects and storage -/

namespace JS

theorem Obj.get_insertIndexed_self (i : Nat) (k : String) (v : JsVal) (o : Obj)
    (h : o.has k = false) : Obj.get (Obj.insertIndexed i k v o) k = v := by
  induction o with
  | nil => simp [Obj.insertIndexed, Obj.get]
  | cons p rest ih =>
    have hp : (p.1 == k) = false := by
      simp only [Obj.has, List.any_cons, Bool.or_eq_false_iff] at h
      exact h.1
    have hrest : Obj.has rest k = false := by
      simp only [Obj.has, List.any_cons, Bool.or_eq_false_iff] at h
      exact h.2
    obtain ⟨pk, pv⟩ := p
    simp only [Obj.insertIndexed]
    split
    · split
      · simp only [Obj.get]
        simp only [hp] at *
        simpa using ih hrest
      · simp [Obj.get]
    · simp [Obj.get]

theorem Obj.get_append_self (k : String) (v : JsVal) (o : Obj) (h : o.has k = false) :
    Obj.get (o ++ [(k, v)]) k = v := by
  induction o with
  | nil => simp [Obj.get]
  | cons p rest ih =>
    obtain ⟨pk, pv⟩ := p
    simp only [Obj.has, List.any_cons, Bool.or_eq_false_iff] at h
    simp only [List.cons_append, Obj.get, h.1]
    simpa using ih (by simpa [Obj.has] using h.2)

theorem Obj.get_map_self (k : String) (v : JsVal) (o : Obj) (h : o.has k = true) :
    Obj.get (o.map (fun p => if p.1 == k then (p.1, v) else p)) k = v := by
  induction o with
  | nil => simp [Obj.has] at h
  | cons p rest ih =>
    obtain ⟨pk, pv⟩ := p
    by_cases hk : pk = k
    · subst hk
      simp only [List.map_cons, beq_self_eq_true, if_true]
      simp only [Obj.get, beq_self_eq_true, if_true]
    · have hb : (pk == k) = false := by simpa using hk
      have hrest : Obj.has rest k = true := by
        simpa [Obj.has, hk] using h
      simp only [List.map_cons, hb, Bool.false_eq_true, if_false]
      simp only [Obj.get, hb, Bool.false_eq_true, if_false]
      exact ih hrest

/-- Reading a property right after writing it gives the value written. -/
theorem Obj.get_set_self (o : Obj) (k : String) (v : JsVal) : (o.set k v).get k = v := by
  unfold Obj.set
  by_cases h : o.has k = true
  · simp only [h, if_true]
    exact Obj.get_map_self k v o h
  · have h' : o.has k = false := by simpa using h
    simp only [h', Bool.false_eq_true, if_false]
    split
    · exact Obj.get_insertIndexed_self _ k v o h'
    · exact Obj.get_append_self k v o h'

theorem Obj.mem_insertIndexed (i : Nat) (k : String) (v : JsVal) (o : Obj)
    (e : String × JsVal) : e ∈ Obj.insertIndexed i k v o ↔ e = (k, v) ∨ e ∈ o := by
  induction o with
  | nil => simp [Obj.insertIndexed]
  | cons p rest ih =>
    simp only [Obj.insertIndexed]
    split
    · split
      · simp only [List.mem_cons, ih]
        tauto
      · simp
    · simp

/-- After a write to `k`, every entry under the key `k` holds the value
written. -/
theorem Obj.mem_set_self (o : Obj) (k : String) (v v' : JsVal)
    (h : (k, v') ∈ o.set k v) : v' = v := by
  unfold Obj.set at h
  by_cases hk : o.has k = true
  · simp only [hk, if_true, List.mem_map] at h
    obtain ⟨p, _, hp⟩ := h
    by_cases hpk : p.1 = k
    · simp only [hpk, beq_self_eq_true, if_true, Prod.mk.injEq, true_and] at hp
      exact hp.symm
    · have : (p.1 == k) = false := by simpa using hpk
      simp only [this, Bool.false_eq_true, if_false] at hp
      exact absurd (by rw [hp]) hpk
  · have hk' : o.has k = false := by simpa using hk
    have hnot : (k, v') ∉ o := by
      intro hmem
      have : o.has k = true := by
        simp only [Obj.has, List.any_eq_true]
        exact ⟨(k, v'), hmem, by simp⟩
      simp [hk'] at this
    simp only [hk', Bool.false_eq_true, if_false] at h
    split at h
    · rcases (Obj.mem_insertIndexed _ k v o _).1 h with h1 | h1
      · simpa using h1
      · exact absurd h1 hnot
    · rcases List.mem_append.1 h with h1 | h1
      · exact absurd h1 hnot
      · simpa using h1

/-- A write to `k` keeps every entry under another key. -/
theorem Obj.mem_set_of_ne (o : Obj) (k : String) (v : JsVal) (e : String × JsVal)
    (he : e ∈ o) (hne : e.1 ≠ k) : e ∈ o.set k v := by
  unfold Obj.set
  split
  · refine List.mem_map.2 ⟨e, he, ?_⟩
    have : (e.1 == k) = false := by simpa using hne
    simp [this]
  · split
    · exact (Obj.mem_insertIndexed _ k v o e).2 (Or.inr he)
    · exact List.mem_append.2 (Or.inl he)

theorem Storage.getItem_removeItem (s : Storage) (k k' : String) :
    (s.removeItem k).getItem k' = if k = k' then none else s.getItem k' := by
  induction s with
  | nil => simp [Storage.removeItem, Storage.getItem]
  | cons p rest ih =>
    obtain ⟨pk, pv⟩ := p
    unfold Storage.removeItem at ih ⊢
    by_cases h1 : pk = k
    · subst h1
      simp only [List.filter_cons, beq_self_eq_true, Bool.not_true, Bool.false_eq_true,
        if_false, ih, Storage.getItem]
      by_cases h2 : pk = k'
      · simp [h2]
      · have hb : (pk == k') = false := by simpa using h2
        simp [h2, hb]
    · have hb1 : (pk == k) = false := by simpa using h1
      simp only [List.filter_cons, hb1, Bool.not_false, if_true, Storage.getItem, ih]
      by_cases h2 : pk = k'
      · subst h2
        have : ¬ k = pk := fun h => h1 h.symm
        simp [this]
      · have hb : (pk == k') = false := by simpa using h2
        simp [hb]

end JS

namespace BookmarkCollectionManager
open JS

/-- The one call `API.request` makes to `fetch`, with its arguments. -/
theorem API.request_fetched (fetch : Fetch) (endpoint : String) (options : Options)
    (w : Browser) :
    (API.request fetch endpoint options w).2.fetched =
      w.fetched ++ [(API.BASE_URL ++ endpoint, API.requestConfig (API.getToken w) options)] := by
  unfold API.request
  simp only
  split
  · rfl
  · split
    · rfl
    · split <;> rfl

end BookmarkCollectionManager

namespace BookmarkCollectionManager
open JS

theorem API.requestConfig_headers (token : JsVal) (options : Options) :
    (API.requestConfig token options).headers =
      if truthy token then
        (API.initialConfig options).headers.set "Authorization" (.str ("Bearer " ++ toStr token))
      else (API.initialConfig options).headers := by
  unfold API.requestConfig
  simp only
  split <;> split <;> rfl

theorem API.requestConfig_body (token : JsVal) (options : Options) :
    (API.requestConfig token options).body =
      if truthy options.bodyVal && typeOf options.bodyVal == "object" then
        JSON.stringify options.bodyVal
      else options.bodyVal := by
  unfold API.requestConfig
  simp only
  split <;> split <;> rfl

theorem API.getToken_of_getItem (w : Browser) (t : String)
    (h : w.localStorage.getItem "token" = some t) : API.getToken w = .str t := by
  simp [API.getToken, h]

/-- C1. With a non-empty token `t` in localStorage, `API.request` calls
`fetch` with headers whose Authorization entry is `Bearer t`, for every
endpoint and every options bag, with or without headers of the caller: no
entry under the key Authorization holds another value. -/
theorem API.request_attaches_bearer_token (fetch : Fetch) (endpoint : String)
    (options : Options) (w : Browser) (t : String)
    (hget : w.localStorage.getItem "token" = some t) (hne : t ≠ "") :
    ∃ config : Config,
      (API.request fetch endpoint options w).2.fetched =
        w.fetched ++ [(API.BASE_URL ++ endpoint, config)] ∧
      config.headers.get "Authorization" = .str ("Bearer " ++ t) ∧
      ∀ v, ("Authorization", v) ∈ config.headers → v = .str ("Bearer " ++ t) := by
  refine ⟨API.requestConfig (API.getToken w) options, API.request_fetched fetch endpoint options w,
    ?_, ?_⟩
  · rw [API.requestConfig_headers, API.getToken_of_getItem w t hget]
    have : truthy (.str t) = true := by simpa [truthy] using hne
    simp only [this, if_true, toStr]
    exact Obj.get_set_self _ _ _
  · intro v hv
    rw [API.requestConfig_headers, API.getToken_of_getItem w t hget] at hv
    have : truthy (.str t) = true := by simpa [truthy] using hne
    simp only [this, if_true, toStr] at hv
    exact Obj.mem_set_self _ _ _ _ hv

/-- Witness of C1: a caller that supplies its own Authorization header. -/
theorem API.request_attaches_bearer_token_witness :
    ∃ config : Config,
      (API.request (fun _ _ => .error .null) "/bookmarks"
          { headers := some [("Authorization", .str "Basic abc")] }
          ⟨[("token", "tok")], "index.html", [], []⟩).2.fetched =
        [] ++ [(API.BASE_URL ++ "/bookmarks", config)] ∧
      config.headers.get "Authorization" = .str ("Bearer " ++ "tok") ∧
      ∀ v, ("Authorization", v) ∈ config.headers → v = .str ("Bearer " ++ "tok") :=
  API.request_attaches_bearer_token (fun _ _ => .error .null) "/bookmarks"
    { headers := some [("Authorization", .str "Basic abc")] }
    ⟨[("token", "tok")], "index.html", [], []⟩ "tok" (by decide) (by decide)

/-- C2, amended. When the endpoint does not contain `/auth/login` and the
call to `fetch` resolves to a response of status 401 whose body parses as
JSON, `API.request` removes `token` and `currentUser` from localStorage, sets
`window.location.href` to `login.html` and resolves to the expired-login
value instead of the body. -/
theorem API.request_unauthorized (fetch : Fetch) (endpoint : String) (options : Options)
    (w : Browser) (response : Response) (data : JsVal)
    (hfetch : fetch (API.BASE_URL ++ endpoint) (API.requestConfig (API.getToken w) options)
      = .ok response)
    (hstatus : response.status = 401) (hjson : response.json = .ok data)
    (hlogin : includes endpoint "/auth/login" = false) :
    (API.request fetch endpoint options w).1 =
        .ok (.obj [("success", .bool false), ("message", .str "登录已过期，请重新登录")]) ∧
      (API.request fetch endpoint options w).2.localStorage.getItem "token" = none ∧
      (API.request fetch endpoint options w).2.localStorage.getItem "currentUser" = none ∧
      (API.request fetch endpoint options w).2.href = "login.html" := by
  have hr : API.request fetch endpoint options w =
      (.ok API.expiredResult,
        { API.clearToken { w with fetched := w.fetched ++
            [(API.BASE_URL ++ endpoint, API.requestConfig (API.getToken w) options)] } with
          href := "login.html" }) := by
    unfold API.request
    simp only [hfetch, hjson, hstatus, hlogin]
    rfl
  rw [hr]
  refine ⟨rfl, ?_, ?_, rfl⟩
  · simp [API.clearToken, Storage.getItem_removeItem]
  · simp [API.clearToken, Storage.getItem_removeItem]

/-- Witness of C2, amended. -/
theorem API.request_unauthorized_witness :
    (API.request (fun _ _ => .ok ⟨401, .ok (.str "denied")⟩) "/bookmarks" {}
        ⟨[("token", "tok"), ("currentUser", "ann"), ("theme", "dark")], "index.html", [], []⟩).1 =
        .ok (.obj [("success", .bool false), ("message", .str "登录已过期，请重新登录")]) ∧
      (API.request (fun _ _ => .ok ⟨401, .ok (.str "denied")⟩) "/bookmarks" {}
        ⟨[("token", "tok"), ("currentUser", "ann"), ("theme", "dark")], "index.html", [], []⟩).2.localStorage.getItem
          "token" = none ∧
      (API.request (fun _ _ => .ok ⟨401, .ok (.str "denied")⟩) "/bookmarks" {}
        ⟨[("token", "tok"), ("currentUser", "ann"), ("theme", "dark")], "index.html", [], []⟩).2.localStorage.getItem
          "currentUser" = none ∧
      (API.request (fun _ _ => .ok ⟨401, .ok (.str "denied")⟩) "/bookmarks" {}
        ⟨[("token", "tok"), ("currentUser", "ann"), ("theme", "dark")], "index.html", [], []⟩).2.href =
        "login.html" :=
  API.request_unauthorized (fun _ _ => .ok ⟨401, .ok (.str "denied")⟩) "/bookmarks" {}
    ⟨[("token", "tok"), ("currentUser", "ann"), ("theme", "dark")], "index.html", [], []⟩
    ⟨401, .ok (.str "denied")⟩ (.str "denied") rfl rfl rfl (by decide)

/-- C2 as stated fails. (a) The endpoint `/auth/login/history` is not the
login endpoint, yet on a 401 response with a JSON body `API.request` resolves
to the body and leaves localStorage and the location alone. (b) On a 401
response whose body does not parse, from `/bookmarks`, it resolves to the
network-failure value and again leaves localStorage and the location alone. -/
theorem API.request_unauthorized_counterexample :
    ("/auth/login/history" ≠ "/auth/login" ∧
      (API.request (fun _ _ => .ok ⟨401, .ok (.str "denied")⟩) "/auth/login/history" {}
        ⟨[("token", "tok"), ("currentUser", "ann")], "index.html", [], []⟩).1
        = .ok (.str "denied") ∧
      (API.request (fun _ _ => .ok ⟨401, .ok (.str "denied")⟩) "/auth/login/history" {}
        ⟨[("token", "tok"), ("currentUser", "ann")], "index.html", [], []⟩).2.localStorage
        = [("token", "tok"), ("currentUser", "ann")] ∧
      (API.request (fun _ _ => .ok ⟨401, .ok (.str "denied")⟩) "/auth/login/history" {}
        ⟨[("token", "tok"), ("currentUser", "ann")], "index.html", [], []⟩).2.href
        = "index.html") ∧
    ((API.request (fun _ _ => .ok ⟨401, .error (.str "SyntaxError")⟩) "/bookmarks" {}
        ⟨[("token", "tok"), ("currentUser", "ann")], "index.html", [], []⟩).1
        = .ok (.obj [("success", .bool false), ("message", .str "网络请求失败，请检查网络连接")]) ∧
      (API.request (fun _ _ => .ok ⟨401, .error (.str "SyntaxError")⟩) "/bookmarks" {}
        ⟨[("token", "tok"), ("currentUser", "ann")], "index.html", [], []⟩).2.localStorage
        = [("token", "tok"), ("currentUser", "ann")] ∧
      (API.request (fun _ _ => .ok ⟨401, .error (.str "SyntaxError")⟩) "/bookmarks" {}
        ⟨[("token", "tok"), ("currentUser", "ann")], "index.html", [], []⟩).2.href
        = "index.html") :=
  ⟨⟨by decide, rfl, rfl, rfl⟩, rfl, rfl, rfl⟩

end BookmarkCollectionManager

namespace BookmarkCollectionManager
open JS

/-- C3. When `API.request` is called on the login endpoint `/auth/login`
and the response to the call it makes has status 401 and a JSON body `data`,
it resolves to `data` itself and leaves localStorage and
`window.location.href` as they were; so does `API.auth.login`, whose call
this is when the options are the ones it builds from the username and the
password. -/
theorem API.request_login_unauthorized (fetch : Fetch) (options : Options) (w : Browser)
    (response : Response) (data : JsVal)
    (hfetch : fetch (API.BASE_URL ++ "/auth/login")
      (API.requestConfig (API.getToken w) options) = .ok response)
    (_hstatus : response.status = 401) (hjson : response.json = .ok data) :
    ((API.request fetch "/auth/login" options w).1 = .ok data ∧
      (API.request fetch "/auth/login" options w).2.localStorage = w.localStorage ∧
      (API.request fetch "/auth/login" options w).2.href = w.href) ∧
    ∀ username password, options = API.auth.login.options username password →
      (API.auth.login fetch username password w).1 = .ok data ∧
      (API.auth.login fetch username password w).2.localStorage = w.localStorage ∧
      (API.auth.login fetch username password w).2.href = w.href := by
  have key : (API.request fetch "/auth/login" options w).1 = .ok data ∧
      (API.request fetch "/auth/login" options w).2.localStorage = w.localStorage ∧
      (API.request fetch "/auth/login" options w).2.href = w.href := by
    have hin : includes "/auth/login" "/auth/login" = true := by decide
    unfold API.request
    simp only [hfetch, hjson, hin]
    simp
  refine ⟨key, ?_⟩
  intro username password hopt
  unfold API.auth.login
  rw [← hopt]
  exact key

/-- Witness of C3: a server that answers 401 to the wrong password and 200
to any other request, a failed login while an older token is still stored. -/
theorem API.request_login_unauthorized_witness :
    ((API.request
        (fun _ config =>
          match config.body with
          | .str s =>
            if s = "\x7b\"username\":\"ann\",\"password\":\"bad\"\x7d" then
              .ok ⟨401, .ok (.obj [("success", .bool false)])⟩
            else .ok ⟨200, .ok (.obj [("success", .bool true)])⟩
          | _ => .ok ⟨200, .ok (.obj [("success", .bool true)])⟩)
        "/auth/login" (API.auth.login.options (.str "ann") (.str "bad"))
        ⟨[("token", "tok")], "login.html?next=1", [], []⟩).1
        = .ok (.obj [("success", .bool false)]) ∧
      (API.request
        (fun _ config =>
          match config.body with
          | .str s =>
            if s = "\x7b\"username\":\"ann\",\"password\":\"bad\"\x7d" then
              .ok ⟨401, .ok (.obj [("success", .bool false)])⟩
            else .ok ⟨200, .ok (.obj [("success", .bool true)])⟩
          | _ => .ok ⟨200, .ok (.obj [("success", .bool true)])⟩)
        "/auth/login" (API.auth.login.options (.str "ann") (.str "bad"))
        ⟨[("token", "tok")], "login.html?next=1", [], []⟩).2.localStorage
        = [("token", "tok")] ∧
      (API.request
        (fun _ config =>
          match config.body with
          | .str s =>
            if s = "\x7b\"username\":\"ann\",\"password\":\"bad\"\x7d" then
              .ok ⟨401, .ok (.obj [("success", .bool false)])⟩
            else .ok ⟨200, .ok (.obj [("success", .bool true)])⟩
          | _ => .ok ⟨200, .ok (.obj [("success", .bool true)])⟩)
        "/auth/login" (API.auth.login.options (.str "ann") (.str "bad"))
        ⟨[("token", "tok")], "login.html?next=1", [], []⟩).2.href
        = "login.html?next=1") ∧
    ((API.auth.login
        (fun _ config =>
          match config.body with
          | .str s =>
            if s = "\x7b\"username\":\"ann\",\"password\":\"bad\"\x7d" then
              .ok ⟨401, .ok (.obj [("success", .bool false)])⟩
            else .ok ⟨200, .ok (.obj [("success", .bool true)])⟩
          | _ => .ok ⟨200, .ok (.obj [("success", .bool true)])⟩)
        (.str "ann") (.str "bad") ⟨[("token", "tok")], "login.html?next=1", [], []⟩).1
        = .ok (.obj [("success", .bool false)]) ∧
      (API.auth.login
        (fun _ config =>
          match config.body with
          | .str s =>
            if s = "\x7b\"username\":\"ann\",\"password\":\"bad\"\x7d" then
              .ok ⟨401, .ok (.obj [("success", .bool false)])⟩
            else .ok ⟨200, .ok (.obj [("success", .bool true)])⟩
          | _ => .ok ⟨200, .ok (.obj [("success", .bool true)])⟩)
        (.str "ann") (.str "bad")
        ⟨[("token", "tok")], "login.html?next=1", [], []⟩).2.localStorage
        = [("token", "tok")] ∧
      (API.auth.login
        (fun _ config =>
          match config.body with
          | .str s =>
            if s = "\x7b\"username\":\"ann\",\"password\":\"bad\"\x7d" then
              .ok ⟨401, .ok (.obj [("success", .bool false)])⟩
            else .ok ⟨200, .ok (.obj [("success", .bool true)])⟩
          | _ => .ok ⟨200, .ok (.obj [("success", .bool true)])⟩)
        (.str "ann") (.str "bad") ⟨[("token", "tok")], "login.html?next=1", [], []⟩).2.href
        = "login.html?next=1") :=
  ⟨(API.request_login_unauthorized
      (fun _ config =>
        match config.body with
        | .str s =>
          if s = "\x7b\"username\":\"ann\",\"password\":\"bad\"\x7d" then
            .ok ⟨401, .ok (.obj [("success", .bool false)])⟩
          else .ok ⟨200, .ok (.obj [("success", .bool true)])⟩
        | _ => .ok ⟨200, .ok (.obj [("success", .bool true)])⟩)
      (API.auth.login.options (.str "ann") (.str "bad"))
      ⟨[("token", "tok")], "login.html?next=1", [], []⟩
      ⟨401, .ok (.obj [("success", .bool false)])⟩ (.obj [("success", .bool false)])
      rfl rfl rfl).1,
    (API.request_login_unauthorized
      (fun _ config =>
        match config.body with
        | .str s =>
          if s = "\x7b\"username\":\"ann\",\"password\":\"bad\"\x7d" then
            .ok ⟨401, .ok (.obj [("success", .bool false)])⟩
          else .ok ⟨200, .ok (.obj [("success", .bool true)])⟩
        | _ => .ok ⟨200, .ok (.obj [("success", .bool true)])⟩)
      (API.auth.login.options (.str "ann") (.str "bad"))
      ⟨[("token", "tok")], "login.html?next=1", [], []⟩
      ⟨401, .ok (.obj [("success", .bool false)])⟩ (.obj [("success", .bool false)])
      rfl rfl rfl).2 (.str "ann") (.str "bad") rfl⟩

/-- C4. When the call to `fetch` rejects, or resolves to a response whose
body does not parse as JSON, `API.request` does not reject: it resolves to
the network-failure value, and localStorage and `window.location.href` stay
as they were, for every endpoint and options bag. -/
theorem API.request_network_failure (fetch : Fetch) (endpoint : String) (options : Options)
    (w : Browser)
    (hfail :
      (∃ error, fetch (API.BASE_URL ++ endpoint) (API.requestConfig (API.getToken w) options)
        = .error error) ∨
      (∃ response error,
        fetch (API.BASE_URL ++ endpoint) (API.requestConfig (API.getToken w) options)
          = .ok response ∧ response.json = .error error)) :
    (API.request fetch endpoint options w).1 =
        .ok (.obj [("success", .bool false), ("message", .str "网络请求失败，请检查网络连接")]) ∧
      (API.request fetch endpoint options w).2.localStorage = w.localStorage ∧
      (API.request fetch endpoint options w).2.href = w.href := by
  rcases hfail with ⟨error, h⟩ | ⟨response, error, h, hj⟩
  · unfold API.request
    simp only [h]
    exact ⟨rfl, rfl, rfl⟩
  · unfold API.request
    simp only [h, hj]
    exact ⟨rfl, rfl, rfl⟩

/-- Witness of C4: a 401 answer with an unparsable body, token stored. -/
theorem API.request_network_failure_witness :
    (API.request (fun _ _ => .ok ⟨401, .error (.str "SyntaxError")⟩) "/categories"
        { method := some (.str "POST"), body := some (.obj [("name", .str "news")]) }
        ⟨[("token", "tok")], "index.html", [], []⟩).1 =
        .ok (.obj [("success", .bool false), ("message", .str "网络请求失败，请检查网络连接")]) ∧
      (API.request (fun _ _ => .ok ⟨401, .error (.str "SyntaxError")⟩) "/categories"
        { method := some (.str "POST"), body := some (.obj [("name", .str "news")]) }
        ⟨[("token", "tok")], "index.html", [], []⟩).2.localStorage =
        (⟨[("token", "tok")], "index.html", [], []⟩ : Browser).localStorage ∧
      (API.request (fun _ _ => .ok ⟨401, .error (.str "SyntaxError")⟩) "/categories"
        { method := some (.str "POST"), body := some (.obj [("name", .str "news")]) }
        ⟨[("token", "tok")], "index.html", [], []⟩).2.href =
        (⟨[("token", "tok")], "index.html", [], []⟩ : Browser).href :=
  API.request_network_failure (fun _ _ => .ok ⟨401, .error (.str "SyntaxError")⟩) "/categories"
    { method := some (.str "POST"), body := some (.obj [("name", .str "news")]) }
    ⟨[("token", "tok")], "index.html", [], []⟩
    (Or.inr ⟨⟨401, .error (.str "SyntaxError")⟩, .str "SyntaxError", rfl, rfl⟩)

end BookmarkCollectionManager

namespace FaceRecognitionAttendance
open JS

/-- C5. The attendance `request` rejects with the very error `fetch`
rejected with, and with the very error `response.json()` rejected with; when
both succeed it resolves to the parsed body, whatever the status. -/
theorem request_propagates (fetch : Fetch) (url : String) (options : Options) (w : Browser) :
    (∀ error, fetch (API_BASE_URL ++ url) (mergedOptions options) = .error error →
      (request fetch url options w).1 = .error error) ∧
    (∀ response error, fetch (API_BASE_URL ++ url) (mergedOptions options) = .ok response →
      response.json = .error error → (request fetch url options w).1 = .error error) ∧
    (∀ response data, fetch (API_BASE_URL ++ url) (mergedOptions options) = .ok response →
      response.json = .ok data → (request fetch url options w).1 = .ok data) := by
  refine ⟨?_, ?_, ?_⟩
  · intro error h
    unfold request
    simp only [h]
  · intro response error h hj
    unfold request
    simp only [h, hj]
  · intro response data h hj
    unfold request
    simp only [h, hj]

/-- Witness of C5: a rejected fetch, an unparsable body, and a parsed body
under status 500. -/
theorem request_propagates_witness :
    (request (fun _ _ => .error (.str "TypeError")) "/employees" {} ⟨[], "", [], []⟩).1
        = .error (.str "TypeError") ∧
      (request (fun _ _ => .ok ⟨200, .error (.str "SyntaxError")⟩) "/employees" {}
        ⟨[], "", [], []⟩).1 = .error (.str "SyntaxError") ∧
      (request (fun _ _ => .ok ⟨500, .ok (.str "down")⟩) "/employees" {} ⟨[], "", [], []⟩).1
        = .ok (.str "down") :=
  ⟨(request_propagates (fun _ _ => .error (.str "TypeError")) "/employees" {}
      ⟨[], "", [], []⟩).1 (.str "TypeError") rfl,
    (request_propagates (fun _ _ => .ok ⟨200, .error (.str "SyntaxError")⟩) "/employees" {}
      ⟨[], "", [], []⟩).2.1 ⟨200, .error (.str "SyntaxError")⟩ (.str "SyntaxError") rfl rfl,
    (request_propagates (fun _ _ => .ok ⟨500, .ok (.str "down")⟩) "/employees" {}
      ⟨[], "", [], []⟩).2.2 ⟨500, .ok (.str "down")⟩ (.str "down") rfl rfl⟩

end FaceRecognitionAttendance

/-! ## Lemmas on the query-string serializer and on object construction -/

namespace JS

theorem tuple_ne_empty (a b : String) : a ++ "=" ++ b ≠ "" := by
  intro h
  have := congrArg String.length h
  simp only [String.length_append] at this
  have h1 : "=".length = 1 := rfl
  have h0 : "".length = 0 := rfl
  omega

theorem urlencodedSerialize_go (l : List (String × String)) (acc : String) (hacc : acc ≠ "") :
    l.foldl
        (fun output p =>
          (if output ≠ "" then output ++ "&" else output) ++ formEncode p.1 ++ "=" ++ formEncode p.2)
        acc
      = String.intercalate.go acc "&" (l.map (fun p => formEncode p.1 ++ "=" ++ formEncode p.2)) := by
  induction l generalizing acc with
  | nil => simp [String.intercalate.go]
  | cons p rest ih =>
    simp only [List.foldl_cons, List.map_cons, String.intercalate.go, hacc, ne_eq,
      not_false_eq_true, if_true]
    have hne : acc ++ "&" ++ formEncode p.1 ++ "=" ++ formEncode p.2 ≠ "" := tuple_ne_empty _ _
    rw [ih _ hne]
    simp only [String.append_assoc]

/-- The serializer joins the encoded tuples with ampersands. -/
theorem urlencodedSerialize_eq (l : List (String × String)) :
    urlencodedSerialize l
      = "&".intercalate (l.map (fun p => formEncode p.1 ++ "=" ++ formEncode p.2)) := by
  cases l with
  | nil => rfl
  | cons p rest =>
    unfold urlencodedSerialize
    simp only [List.foldl_cons, List.map_cons, String.intercalate, ne_eq, not_true_eq_false,
      if_false]
    have hne : "" ++ formEncode p.1 ++ "=" ++ formEncode p.2 ≠ "" := tuple_ne_empty _ _
    rw [urlencodedSerialize_go _ _ hne]
    simp only [String.empty_append]

theorem intercalate_go_ne_empty (sep : String) (l : List String) (acc : String)
    (hacc : acc ≠ "") : String.intercalate.go acc sep l ≠ "" := by
  induction l generalizing acc with
  | nil => simpa [String.intercalate.go] using hacc
  | cons a rest ih =>
    simp only [String.intercalate.go]
    apply ih
    intro h
    have hd := congrArg String.length h
    simp only [String.length_append] at hd
    have h0 : "".length = 0 := rfl
    have hlen : acc.length = 0 := by omega
    apply hacc
    cases acc with
    | mk d =>
      simp only [String.length, List.length_eq_zero] at hlen
      simp [hlen]

/-- The serializer gives the empty string for the empty list only. -/
theorem urlencodedSerialize_eq_empty_iff (l : List (String × String)) :
    urlencodedSerialize l = "" ↔ l = [] := by
  constructor
  · intro h
    cases l with
    | nil => rfl
    | cons p rest =>
      exfalso
      rw [urlencodedSerialize_eq] at h
      simp only [List.map_cons, String.intercalate] at h
      exact intercalate_go_ne_empty _ _ _ (tuple_ne_empty _ _) h
  · intro h
    subst h
    rfl

theorem Obj.has_eq_false_iff (o : Obj) (k : String) :
    o.has k = false ↔ k ∉ o.map Prod.fst := by
  induction o with
  | nil => simp [Obj.has]
  | cons p rest ih =>
    simp only [Obj.has, List.any_cons, Bool.or_eq_false_iff, List.map_cons, List.mem_cons,
      not_or] at ih ⊢
    rw [ih]
    constructor
    · rintro ⟨h1, h2⟩
      exact ⟨fun h => by simp [h] at h1, h2⟩
    · rintro ⟨h1, h2⟩
      exact ⟨by simpa using fun h => h1 h.symm, h2⟩

theorem Obj.insertIndexed_eq_append (i : Nat) (k : String) (v : JsVal) (o : Obj)
    (hk : arrayIndex? k = some i) (hord : ∀ p ∈ o, keyBefore p.1 k = true) :
    Obj.insertIndexed i k v o = o ++ [(k, v)] := by
  induction o with
  | nil => rfl
  | cons p rest ih =>
    have hp := hord p (List.mem_cons_self _ _)
    have hrest := ih (fun q hq => hord q (List.mem_cons_of_mem _ hq))
    simp only [keyBefore, hk] at hp
    simp only [Obj.insertIndexed, List.cons_append]
    split
    · rename_i j hj
      simp only [hj, decide_eq_true_eq] at hp
      simp [hp, hrest]
    · rename_i hj
      simp [hj] at hp

/-- Writing a new key that comes after every key of the object appends the
property. -/
theorem Obj.set_eq_append (o : Obj) (k : String) (v : JsVal) (hnew : o.has k = false)
    (hord : ∀ p ∈ o, keyBefore p.1 k = true) : o.set k v = o ++ [(k, v)] := by
  unfold Obj.set
  simp only [hnew, Bool.false_eq_true, if_false]
  split
  · rename_i i hi
    exact Obj.insertIndexed_eq_append i k v o hi hord
  · rfl

theorem Object.fromEntries_go (l acc : Obj) (h : Obj.WF (acc ++ l)) :
    l.foldl (fun acc p => acc.set p.1 p.2) acc = acc ++ l := by
  induction l generalizing acc with
  | nil => simp
  | cons p rest ih =>
    obtain ⟨hnd, hpw⟩ := h
    simp only [List.map_append, List.map_cons] at hnd hpw
    have hnew : acc.has p.1 = false := by
      rw [Obj.has_eq_false_iff]
      intro hmem
      have := (List.nodup_append.1 hnd).2.2
      exact this hmem (List.mem_cons_self _ _)
    have hord : ∀ q ∈ acc, keyBefore q.1 p.1 = true := by
      intro q hq
      have := (List.pairwise_append.1 hpw).2.2
      exact this q.1 (List.mem_map_of_mem _ hq) p.1 (List.mem_cons_self _ _)
    simp only [List.foldl_cons]
    rw [Obj.set_eq_append acc p.1 p.2 hnew hord]
    have hwf : Obj.WF ((acc ++ [p]) ++ rest) := by
      simpa [Obj.WF] using And.intro hnd hpw
    simpa using ih (acc ++ [p]) hwf

/-- Rebuilding an object from its own entries gives the object back. -/
theorem Object.fromEntries_of_WF (o : Obj) (h : Obj.WF o) : Object.fromEntries o = o := by
  unfold Object.fromEntries
  simpa using Object.fromEntries_go o [] (by simpa using h)

theorem Obj.WF_filter (o : Obj) (f : String × JsVal → Bool) (h : Obj.WF o) :
    Obj.WF (o.filter f) := by
  have hsub : ((o.filter f).map Prod.fst).Sublist (o.map Prod.fst) :=
    List.Sublist.map _ (List.filter_sublist o)
  exact ⟨h.1.sublist hsub, h.2.sublist hsub⟩

end JS

namespace BookmarkCollectionManager
open JS

/-- C6, amended. The endpoint `API.bookmarks.getList` hands to `API.request`
is `/bookmarks` followed by `?` and `key=value`, in the order categoryId,
keyword, page, size, for exactly the fields whose value is truthy, and is
`/bookmarks` alone when no field is truthy. -/
theorem API.bookmarks.getList_endpoint (fetch : Fetch) (params : Obj) (w : Browser) :
    API.bookmarks.getList.endpoint params = API.bookmarks.getList.described truthy params ∧
    API.bookmarks.getList fetch params w =
      API.request fetch (API.bookmarks.getList.described truthy params) {} w := by
  have h1 : formEncode "categoryId" = "categoryId" := by decide
  have h2 : formEncode "keyword" = "keyword" := by decide
  have h3 : formEncode "page" = "page" := by decide
  have h4 : formEncode "size" = "size" := by decide
  have key : API.bookmarks.getList.endpoint params
      = API.bookmarks.getList.described truthy params := by
    unfold API.bookmarks.getList.endpoint API.bookmarks.getList.described
    simp only [URLSearchParams.toString, URLSearchParams.append, URLSearchParams.new, ne_eq,
      urlencodedSerialize_eq_empty_iff]
    cases c1 : truthy (Obj.get params "categoryId") <;>
      cases c2 : truthy (Obj.get params "keyword") <;>
      cases c3 : truthy (Obj.get params "page") <;>
      cases c4 : truthy (Obj.get params "size") <;>
      simp [urlencodedSerialize_eq, h1, h2, h3, h4, List.filter_cons, c1, c2, c3, c4]
  exact ⟨key, by unfold API.bookmarks.getList; rw [key]⟩

/-- C6 as stated fails on `page: 0`: the value is present as the claim
words it, the described endpoint is `/bookmarks?page=0`, and the endpoint
built is `/bookmarks`. -/
theorem API.bookmarks.getList_endpoint_counterexample :
    presentAsDescribed (.num 0) = true ∧
    API.bookmarks.getList.described presentAsDescribed [("page", .num 0)] = "/bookmarks?page=0" ∧
    API.bookmarks.getList.endpoint [("page", .num 0)] = "/bookmarks" ∧
    API.bookmarks.getList.endpoint [("page", .num 0)]
      ≠ API.bookmarks.getList.described presentAsDescribed [("page", .num 0)] := by
  refine ⟨rfl, by decide, by decide, by decide⟩

end BookmarkCollectionManager

namespace BookmarkCollectionManager
open JS

/-- C7, amended. On a call without headers of the caller, the init object
handed to `fetch` has Content-Type `application/json`; a body that is an
object or an array is replaced by its JSON text `JSON.stringify(body)`, and
a body that is a string, a number or a boolean is handed over as it is. -/
theorem API.request_body (fetch : Fetch) (endpoint : String) (options : Options) (w : Browser)
    (hheaders : options.headers = none) :
    ∃ config : Config,
      (API.request fetch endpoint options w).2.fetched =
        w.fetched ++ [(API.BASE_URL ++ endpoint, config)] ∧
      config.headers.get "Content-Type" = .str "application/json" ∧
      (∀ props, options.body = some (.obj props) →
        ∃ text, JSON.stringify (.obj props) = .str text ∧ config.body = .str text) ∧
      (∀ items, options.body = some (.arr items) →
        ∃ text, JSON.stringify (.arr items) = .str text ∧ config.body = .str text) ∧
      (∀ s, options.body = some (.str s) → config.body = .str s) ∧
      (∀ n, options.body = some (.num n) → config.body = .num n) ∧
      (∀ b, options.body = some (.bool b) → config.body = .bool b) := by
  refine ⟨API.requestConfig (API.getToken w) options, API.request_fetched fetch endpoint options w,
    ?_, ?_, ?_, ?_, ?_, ?_⟩
  · rw [API.requestConfig_headers]
    have hinit : (API.initialConfig options).headers
        = [("Content-Type", .str "application/json")] := by
      simp [API.initialConfig, hheaders, Obj.spread]
    have hidx : arrayIndex? "Authorization" = none := by decide
    rw [hinit]
    split
    · simp [Obj.set, Obj.has, hidx, Obj.get]
    · simp [Obj.get]
  · intro props hb
    refine ⟨_, rfl, ?_⟩
    rw [API.requestConfig_body]
    simp [Options.bodyVal, hb, truthy, typeOf, JSON.stringify, serializeJSONProperty]
  · intro items hb
    refine ⟨_, rfl, ?_⟩
    rw [API.requestConfig_body]
    simp [Options.bodyVal, hb, truthy, typeOf, JSON.stringify, serializeJSONProperty]
  · intro s hb
    rw [API.requestConfig_body]
    simp [Options.bodyVal, hb, typeOf]
  · intro n hb
    rw [API.requestConfig_body]
    simp [Options.bodyVal, hb, typeOf]
  · intro b hb
    rw [API.requestConfig_body]
    simp [Options.bodyVal, hb, typeOf]

/-- Witness of C7, amended: the body of `API.auth.login`. -/
theorem API.request_body_witness :
    ∃ config : Config,
      (API.request (fun _ _ => .error .null) "/auth/login"
          { method := some (.str "POST"),
            body := some (.obj [("username", .str "ann"), ("password", .str "pw")]) }
          ⟨[], "login.html", [], []⟩).2.fetched =
        [] ++ [(API.BASE_URL ++ "/auth/login", config)] ∧
      config.headers.get "Content-Type" = .str "application/json" ∧
      (∀ props, some (JsVal.obj [("username", .str "ann"), ("password", .str "pw")])
          = some (.obj props) →
        ∃ text, JSON.stringify (.obj props) = .str text ∧ config.body = .str text) ∧
      (∀ items, some (JsVal.obj [("username", .str "ann"), ("password", .str "pw")])
          = some (.arr items) →
        ∃ text, JSON.stringify (.arr items) = .str text ∧ config.body = .str text) ∧
      (∀ s, some (JsVal.obj [("username", .str "ann"), ("password", .str "pw")])
          = some (.str s) → config.body = .str s) ∧
      (∀ n, some (JsVal.obj [("username", .str "ann"), ("password", .str "pw")])
          = some (.num n) → config.body = .num n) ∧
      (∀ b, some (JsVal.obj [("username", .str "ann"), ("password", .str "pw")])
          = some (.bool b) → config.body = .bool b) :=
  API.request_body (fun _ _ => .error .null) "/auth/login"
    { method := some (.str "POST"),
      body := some (.obj [("username", .str "ann"), ("password", .str "pw")]) }
    ⟨[], "login.html", [], []⟩ rfl

/-- C7 as stated fails on a number and on a boolean body: `API.request`
hands the number 5 and the boolean `true` to `fetch` as they are, not the
JSON texts `"5"` and `"true"`. -/
theorem API.request_body_counterexample :
    ((API.request (fun _ _ => .error .null) "/bookmarks"
        { method := some (.str "POST"), body := some (.num 5) } ⟨[], "", [], []⟩).2.fetched =
      [("http://localhost:8080/api/bookmarks",
        { method := .str "POST", headers := [("Content-Type", .str "application/json")],
          body := .num 5, others := [] })] ∧
      JSON.stringify (.num 5) = .str "5" ∧ JsVal.num 5 ≠ .str "5") ∧
    ((API.request (fun _ _ => .error .null) "/bookmarks"
        { method := some (.str "POST"), body := some (.bool true) } ⟨[], "", [], []⟩).2.fetched =
      [("http://localhost:8080/api/bookmarks",
        { method := .str "POST", headers := [("Content-Type", .str "application/json")],
          body := .bool true, others := [] })] ∧
      JSON.stringify (.bool true) = .str "true" ∧ JsVal.bool true ≠ .str "true") :=
  ⟨⟨rfl, rfl, by simp⟩, rfl, rfl, by simp⟩

end BookmarkCollectionManager

/-- C8, the code at the failing input. With no token stored and the headers
`X-Requested-With` of the caller, `API.request` hands to `fetch` exactly the
headers of the caller: the spread of `options` has overwritten the merged
headers, and no Content-Type is sent. The attendance dispatcher merges the
same headers with the default. -/
theorem BookmarkCollectionManager.API.request_drops_default_content_type :
    (BookmarkCollectionManager.API.request (fun _ _ => .error .null) "/bookmarks"
        { headers := some [("X-Requested-With", .str "XMLHttpRequest")] }
        ⟨[], "index.html", [], []⟩).2.fetched =
      [("http://localhost:8080/api/bookmarks",
        { method := .str "GET", headers := [("X-Requested-With", .str "XMLHttpRequest")],
          body := .undefined, others := [] })] ∧
    JS.Obj.has [("X-Requested-With", .str "XMLHttpRequest")] "Content-Type" = false ∧
    (FaceRecognitionAttendance.mergedOptions
        { headers := some [("X-Requested-With", .str "XMLHttpRequest")] }).headers =
      [("Content-Type", .str "application/json"), ("X-Requested-With", .str "XMLHttpRequest")] :=
  ⟨rfl, rfl, rfl⟩

namespace FaceRecognitionAttendance
open JS

/-- C9, the code at the failing input. `api.getEmployees` and
`api.getAttendanceStats` put every property of `params` into the query
string, an empty string as `name=`, `null` and `undefined` as the words
`null` and `undefined`; `api.getAttendanceRecords` leaves those out. -/
theorem api.getEmployees_keeps_empty_values :
    api.getEmployees.url [("name", .str ""), ("department", .null), ("status", .undefined)]
      = "/employees?name=&department=null&status=undefined" ∧
    api.getAttendanceStats.url [("month", .str ""), ("department", .null)]
      = "/statistics/attendance?month=&department=null" ∧
    api.getAttendanceRecords.url [("name", .str ""), ("department", .null), ("status", .undefined)]
      = "/attendance/records" := by
  refine ⟨by decide, by decide, by decide⟩

/-- C10. For an object `params`, the url `api.getAttendanceRecords` hands to
`request` is `/attendance/records` followed by `?` and the entries of
`params` whose value is not the empty string, not `null` and not
`undefined`, in the order of the object, as `key=value` joined by `&`; it is
`/attendance/records` alone when no entry is left. The values 0 and `false`
are kept. -/
theorem api.getAttendanceRecords_url (fetch : Fetch) (params : Obj) (w : Browser)
    (hwf : params.WF) :
    api.getAttendanceRecords.url params = api.getAttendanceRecords.described params ∧
    api.getAttendanceRecords fetch params w =
      request fetch (api.getAttendanceRecords.described params) {} w ∧
    presentAsDescribed (.num 0) = true ∧ presentAsDescribed (.bool false) = true := by
  have hfilter : (fun p : String × JsVal => neEmptyString p.2 && neNull p.2 && neUndefined p.2)
      = (fun p => presentAsDescribed p.2) := by
    funext p
    cases p.2 <;> simp [presentAsDescribed, neEmptyString, neNull, neUndefined]
  have key : api.getAttendanceRecords.url params = api.getAttendanceRecords.described params := by
    unfold api.getAttendanceRecords.url api.getAttendanceRecords.described
    simp only [Object.entries, hfilter]
    rw [Object.fromEntries_of_WF _ (Obj.WF_filter params _ hwf)]
    simp only [URLSearchParams.toString, URLSearchParams.ofRecord, ne_eq,
      urlencodedSerialize_eq_empty_iff]
    cases hk : params.filter (fun p => presentAsDescribed p.2) with
    | nil => simp
    | cons a rest =>
      simp only [List.map_cons, reduceCtorEq, not_false_eq_true, if_true, List.isEmpty_cons,
        Bool.false_eq_true, if_false, urlencodedSerialize_eq, List.map_map, Function.comp_def]
      rw [← String.append_assoc]
      rfl
  exact ⟨key, by unfold api.getAttendanceRecords; rw [key], rfl, rfl⟩

/-- Witness of C10: empty, `null` and `undefined` values dropped, 0 and
`false` kept, a name and a value that need encoding. -/
theorem api.getAttendanceRecords_url_witness :
    (api.getAttendanceRecords.url
        [("employeeId", .str ""), ("page", .num 0), ("late", .bool false), ("from", .null),
          ("to", .undefined), ("dept name", .str "R&D")]
      = api.getAttendanceRecords.described
        [("employeeId", .str ""), ("page", .num 0), ("late", .bool false), ("from", .null),
          ("to", .undefined), ("dept name", .str "R&D")] ∧
    api.getAttendanceRecords (fun _ _ => .error .null)
        [("employeeId", .str ""), ("page", .num 0), ("late", .bool false), ("from", .null),
          ("to", .undefined), ("dept name", .str "R&D")] ⟨[], "", [], []⟩ =
      request (fun _ _ => .error .null) (api.getAttendanceRecords.described
        [("employeeId", .str ""), ("page", .num 0), ("late", .bool false), ("from", .null),
          ("to", .undefined), ("dept name", .str "R&D")]) {} ⟨[], "", [], []⟩ ∧
    presentAsDescribed (.num 0) = true ∧ presentAsDescribed (.bool false) = true) ∧
    api.getAttendanceRecords.described
        [("employeeId", .str ""), ("page", .num 0), ("late", .bool false), ("from", .null),
          ("to", .undefined), ("dept name", .str "R&D")]
      = "/attendance/records?page=0&late=false&dept+name=R%26D" :=
  ⟨api.getAttendanceRecords_url (fun _ _ => .error .null)
      [("employeeId", .str ""), ("page", .num 0), ("late", .bool false), ("from", .null),
        ("to", .undefined), ("dept name", .str "R&D")] ⟨[], "", [], []⟩
      (by unfold Obj.WF; decide),
    by decide⟩

end FaceRecognitionAttendance
